import Mathlib

/-!
Verification of the compositor-level visual-regression pipeline
(`src/lib/wdio/compositor-service.js`, `src/lib/node/capture-compositor.js`,
`src/lib/node/capture-pixels.js`) against its natural-language specification.

Paint commands are heterogeneous JSON payloads, so the embedding works over a
JSON value type; JavaScript-specific behaviour (truthiness, `||` defaulting,
`Object.entries`, `JSON.stringify` key insertion order) is embedded explicitly
where the source relies on it.
-/

namespace Compositor

/-- JSON values, the shape of paint-command payloads flowing through the
pipeline. Objects keep their key insertion order, as JavaScript objects do. -/
inductive Json where
  | str : String → Json
  | num : Int → Json
  | bool : Bool → Json
  | null : Json
  | arr : List Json → Json
  | obj : List (String × Json) → Json

/-- JavaScript truthiness of a JSON value (`if (x)`): null, false, 0 and the
empty string are falsy; every array and object is truthy. -/
def Json.truthy : Json → Bool
  | .null => false
  | .bool b => b
  | .num n => n != 0
  | .str s => s != ""
  | .arr _ => true
  | .obj _ => true

/-- First binding of key `k` in an association list, as JavaScript property
lookup sees one binding per key. -/
def lookupField (kvs : List (String × Json)) (k : String) : Option Json :=
  match kvs with
  | [] => none
  | (k', v) :: rest => if k' = k then some v else lookupField rest k

/-- `x.k` member access: a property of an object, `undefined` (none) on
anything else. -/
def Json.getField (j : Json) (k : String) : Option Json :=
  match j with
  | .obj kvs => lookupField kvs k
  | _ => none

/-- `a || b` where `a` is a possibly-undefined member access: the left value
when truthy, otherwise the right value. -/
def jsOr (a : Option Json) (b : Json) : Json :=
  match a with
  | some v => if v.truthy then v else b
  | none => b

/-- One character of a JSON string rendered as `JSON.stringify` renders it:
quote, backslash and control characters escaped, everything else literal. -/
def escChar (c : Char) : List Char :=
  if c = '"' then ['\\', '"']
  else if c = '\\' then ['\\', '\\']
  else if c = '\n' then ['\\', 'n']
  else if c = '\t' then ['\\', 't']
  else if c = '\r' then ['\\', 'r']
  else if c.toNat = 8 then ['\\', 'b']
  else if c.toNat = 12 then ['\\', 'f']
  else if c.toNat < 32 then
    ['\\', 'u', '0', '0',
     (if c.toNat / 16 < 10 then Char.ofNat (48 + c.toNat / 16) else Char.ofNat (87 + c.toNat / 16)),
     (if c.toNat % 16 < 10 then Char.ofNat (48 + c.toNat % 16) else Char.ofNat (87 + c.toNat % 16))]
  else [c]

/-- A JSON string literal as `JSON.stringify` emits it, quotes included. -/
def quoteStr (s : String) : String :=
  String.mk ('"' :: (s.data.flatMap escChar) ++ ['"'])

mutual

/-- `JSON.stringify(v)` with no spacing argument: compact separators, object
keys in insertion order (JavaScript does not sort string keys). -/
def Json.stringify : Json → String
  | .str s => quoteStr s
  | .num n => toString n
  | .bool b => if b then "true" else "false"
  | .null => "null"
  | .arr xs => "[" ++ stringifyElems xs ++ "]"
  | .obj kvs => "\x7b" ++ stringifyMembers kvs ++ "\x7d"

/-- Comma-separated renderings of an array's elements. -/
def stringifyElems : List Json → String
  | [] => ""
  | [x] => x.stringify
  | x :: y :: rest => x.stringify ++ "," ++ stringifyElems (y :: rest)

/-- Comma-separated `"key":value` renderings of an object's members, in
insertion order. -/
def stringifyMembers : List (String × Json) → String
  | [] => ""
  | [(k, v)] => quoteStr k ++ ":" ++ v.stringify
  | (k, v) :: m :: rest => quoteStr k ++ ":" ++ v.stringify ++ "," ++ stringifyMembers (m :: rest)

end

/-- Lexicographic comparison of character lists by code point. -/
def charsLt : List Char → List Char → Bool
  | [], _ :: _ => true
  | _, [] => false
  | c :: cs, d :: ds =>
    if c.toNat < d.toNat then true
    else if d.toNat < c.toNat then false
    else charsLt cs ds

/-- Lexicographic string order, the key order of the canonical serialization. -/
def keyLt (a b : String) : Bool := charsLt a.data b.data

/-- Insert a member into a key-sorted member list, keeping keys sorted. -/
def insertByKey (p : String × Json) : List (String × Json) → List (String × Json)
  | [] => [p]
  | q :: rest => if keyLt p.1 q.1 then p :: q :: rest else q :: insertByKey p rest

/-- Sort an object's members by key. -/
def sortMembersByKey : List (String × Json) → List (String × Json)
  | [] => []
  | p :: rest => insertByKey p (sortMembersByKey rest)

mutual

/-- Modelled from the spec: the "deterministic key-ordered serialization" of
section 4.4 — every object's members sorted by key before rendering. Stated
only to compare against the serialization the source actually uses
(`Json.stringify`, which keeps insertion order). -/
def Json.keyOrdered : Json → Json
  | .str s => .str s
  | .num n => .num n
  | .bool b => .bool b
  | .null => .null
  | .arr xs => .arr (keyOrderedElems xs)
  | .obj kvs => .obj (sortMembersByKey (keyOrderedMembers kvs))

/-- Key-ordering applied to each element of an array. -/
def keyOrderedElems : List Json → List Json
  | [] => []
  | x :: rest => x.keyOrdered :: keyOrderedElems rest

/-- Key-ordering applied to each member value of an object. -/
def keyOrderedMembers : List (String × Json) → List (String × Json)
  | [] => []
  | (k, v) :: rest => (k, v.keyOrdered) :: keyOrderedMembers rest

end

/-- Modelled from the spec: serialize a command sequence with every object's
keys sorted, the reading of "deterministic key-ordered serialization". -/
def specKeyOrderedStringify (cs : List Json) : String :=
  (Json.arr cs).keyOrdered.stringify

/-! SHA-256, as `crypto.createHash('sha256')` computes it over the UTF-8 bytes
of the serialized command sequence. Words are naturals reduced mod 2^32. -/

/-- UTF-8 bytes of one character. -/
def charUtf8 (c : Char) : List Nat :=
  let n := c.toNat
  if n < 128 then [n]
  else if n < 2048 then [192 + n / 64, 128 + n % 64]
  else if n < 65536 then [224 + n / 4096, 128 + (n / 64) % 64, 128 + n % 64]
  else [240 + n / 262144, 128 + (n / 4096) % 64, 128 + (n / 64) % 64, 128 + n % 64]

/-- UTF-8 bytes of a string, the input `hash.update` consumes. -/
def strUtf8 (s : String) : List Nat :=
  s.data.flatMap charUtf8

/-- Addition of 32-bit words. -/
def add32 (a b : Nat) : Nat := (a + b) % 4294967296

/-- Right rotation of a 32-bit word by `n` places. -/
def rotr32 (x n : Nat) : Nat :=
  (x / 2 ^ n + x % 2 ^ n * 2 ^ (32 - n)) % 4294967296

/-- Bitwise complement of a 32-bit word. -/
def not32 (x : Nat) : Nat := Nat.xor x 4294967295

/-- The most significant `n` bytes of `v`, big-endian. -/
def beBytes (n v : Nat) : List Nat :=
  (List.range n).map fun i => v / 256 ^ (n - 1 - i) % 256

/-- SHA-256 message padding: a 0x80 byte, zeros to 56 mod 64, and the bit
length in 8 big-endian bytes. -/
def sha256pad (msg : List Nat) : List Nat :=
  let zeros := (119 - msg.length % 64) % 64
  msg ++ 128 :: List.replicate zeros 0 ++ beBytes 8 (msg.length * 8)

/-- Split a byte list into 64-byte blocks, with fuel for structural
recursion; each step consumes 64 bytes, so the list's length is ample fuel. -/
def toBlocksFuel : Nat → List Nat → List (List Nat)
  | 0, _ => []
  | _ + 1, [] => []
  | fuel + 1, b :: bs => (b :: bs).take 64 :: toBlocksFuel fuel ((b :: bs).drop 64)

/-- Split a byte list into 64-byte blocks. -/
def toBlocks (bs : List Nat) : List (List Nat) :=
  toBlocksFuel bs.length bs

/-- The 16 big-endian 32-bit words of one 64-byte block. -/
def blockWords (block : List Nat) : List Nat :=
  (List.range 16).map fun i =>
    ((block.getD (4 * i) 0 * 256 + block.getD (4 * i + 1) 0) * 256 +
      block.getD (4 * i + 2) 0) * 256 + block.getD (4 * i + 3) 0

/-- The SHA-256 round constants. -/
def sha256K : List Nat :=
  [1116352408, 1899447441, 3049323471, 3921009573, 961987163, 1508970993,
   2453635748, 2870763221, 3624381080, 310598401, 607225278, 1426881987,
   1925078388, 2162078206, 2614888103, 3248222580, 3835390401, 4022224774,
   264347078, 604807628, 770255983, 1249150122, 1555081692, 1996064986,
   2554220882, 2821834349, 2952996808, 3210313671, 3336571891, 3584528711,
   113926993, 338241895, 666307205, 773529912, 1294757372, 1396182291,
   1695183700, 1986661051, 2177026350, 2456956037, 2730485921, 2820302411,
   3259730800, 3345764771, 3516065817, 3600352804, 4094571909, 275423344,
   430227734, 506948616, 659060556, 883997877, 958139571, 1322822218,
   1537002063, 1747873779, 1955562222, 2024104815, 2227730452, 2361852424,
   2428436474, 2756734187, 3204031479, 3329325298]

/-- The initial SHA-256 state. -/
def sha256H0 : List Nat :=
  [1779033703, 3144134277, 1013904242, 2773480762, 1359893119, 2600822924,
   528734635, 1541459225]

/-- The small sigma-0 word mix of the message schedule. -/
def ssig0 (x : Nat) : Nat := Nat.xor (Nat.xor (rotr32 x 7) (rotr32 x 18)) (x / 8)

/-- The small sigma-1 word mix of the message schedule. -/
def ssig1 (x : Nat) : Nat := Nat.xor (Nat.xor (rotr32 x 17) (rotr32 x 19)) (x / 1024)

/-- The 64-word message schedule of one block. -/
def msgSchedule (block : List Nat) : List Nat :=
  (List.range 48).foldl
    (fun w _ =>
      w ++ [add32 (add32 (ssig1 (w.getD (w.length - 2) 0)) (w.getD (w.length - 7) 0))
              (add32 (ssig0 (w.getD (w.length - 15) 0)) (w.getD (w.length - 16) 0))])
    (blockWords block)

/-- One SHA-256 round: update the eight working words with a schedule word and
round constant. -/
def sha256Round (st : List Nat) (kw : Nat × Nat) : List Nat :=
  let a := st.getD 0 0
  let b := st.getD 1 0
  let c := st.getD 2 0
  let d := st.getD 3 0
  let e := st.getD 4 0
  let f := st.getD 5 0
  let g := st.getD 6 0
  let h := st.getD 7 0
  let bsig1 := Nat.xor (Nat.xor (rotr32 e 6) (rotr32 e 11)) (rotr32 e 25)
  let ch := Nat.xor (Nat.land e f) (Nat.land (not32 e) g)
  let t1 := add32 (add32 (add32 h bsig1) (add32 ch kw.1)) kw.2
  let bsig0 := Nat.xor (Nat.xor (rotr32 a 2) (rotr32 a 13)) (rotr32 a 22)
  let maj := Nat.xor (Nat.xor (Nat.land a b) (Nat.land a c)) (Nat.land b c)
  let t2 := add32 bsig0 maj
  [add32 t1 t2, a, b, c, add32 d t1, e, f, g]

/-- Compress one 64-byte block into the running eight-word state. -/
def sha256Compress (st : List Nat) (block : List Nat) : List Nat :=
  let out := (sha256K.zip (msgSchedule block)).foldl sha256Round st
  [add32 (st.getD 0 0) (out.getD 0 0), add32 (st.getD 1 0) (out.getD 1 0),
   add32 (st.getD 2 0) (out.getD 2 0), add32 (st.getD 3 0) (out.getD 3 0),
   add32 (st.getD 4 0) (out.getD 4 0), add32 (st.getD 5 0) (out.getD 5 0),
   add32 (st.getD 6 0) (out.getD 6 0), add32 (st.getD 7 0) (out.getD 7 0)]

/-- The eight 32-bit words of the SHA-256 digest of a byte list. -/
def sha256Words (msg : List Nat) : List Nat :=
  (toBlocks (sha256pad msg)).foldl sha256Compress sha256H0

/-- One lowercase hex digit. -/
def hexChar (n : Nat) : Char :=
  if n < 10 then Char.ofNat (48 + n) else Char.ofNat (87 + n)

/-- The eight lowercase hex digits of a 32-bit word, most significant first. -/
def hexWordChars (w : Nat) : List Char :=
  (List.range 8).map fun i => hexChar (w / 16 ^ (7 - i) % 16)

/-- `crypto.createHash('sha256').update(s).digest('hex')`: the 64-character
lowercase hex digest of the UTF-8 bytes of `s`. -/
def sha256hex (s : String) : String :=
  String.mk ((sha256Words (strUtf8 s)).flatMap hexWordChars)

/-- `s.substring(0, n)`: the first `n` characters of a string. -/
def substrTake (s : String) (n : Nat) : String :=
  String.mk (s.data.take n)

/-! The Command Normalizer: the script filter applied to each layer's decoded
commands (`compositor-service.js` 150-166) and the per-command processing
step (`compositor-service.js` 225-238). -/

/-- Whether `pat` begins the list `l`. -/
def beginsWith : List Char → List Char → Bool
  | [], _ => true
  | _ :: _, [] => false
  | c :: cs, d :: ds => c == d && beginsWith cs ds

/-- Whether `pat` occurs somewhere inside `l`. -/
def hasSubChars (pat : List Char) : List Char → Bool
  | [] => beginsWith pat []
  | d :: ds => beginsWith pat (d :: ds) || hasSubChars pat ds

/-- `s.includes(pat)`: substring containment. -/
def containsSub (s pat : String) : Bool := hasSubChars pat.data s.data

/-- The script-likeness test of `compositor-service.js` 154-161: declaration
keywords, `function`, DOM/window references, arrow syntax, or length above
500. Lengths count characters; the source counts UTF-16 units, which agree on
the payloads at issue. -/
def isScriptText (t : String) : Bool :=
  containsSub t "const " || containsSub t "let " || containsSub t "var " ||
  containsSub t "function" || containsSub t "document." || containsSub t "window." ||
  containsSub t "=>" || t.length > 500

/-- `cmd.params?.text` when truthy: the filter inspects the text payload only
when present and truthy. A non-string text payload is modelled as absent (the
protocol and the DOM walker only produce string text fields). -/
def textParam (cmd : Json) : Option String :=
  match (cmd.getField "params").bind (fun p => p.getField "text") with
  | some (.str s) => if s = "" then none else some s
  | _ => none

/-- The filter predicate of `compositor-service.js` 150-166: keep a command
unless it is a `drawTextBlob` with a truthy text payload that looks like
script. -/
def keepCommand (cmd : Json) : Bool :=
  match cmd.getField "method", textParam cmd with
  | some (.str "drawTextBlob"), some t => !isScriptText t
  | _, _ => true

/-- `commands.filter(...)`: drop script-like text commands from one layer's
decoded command list. -/
def filterScriptCommands (cs : List Json) : List Json :=
  cs.filter keepCommand

/-- `Object.entries(x)`: an object's members in insertion order; index/char
pairs for arrays and strings; nothing for primitives. -/
def jsObjectEntries : Json → List (String × Json)
  | .obj kvs => kvs
  | .arr xs => (xs.enum.map fun p => (toString p.1, p.2))
  | .str s => (s.data.enum.map fun p => (toString p.1, Json.str (String.mk [p.2])))
  | _ => []

/-- One iteration of the processing map of `compositor-service.js` 225-238:
resolve the method from `method`/`cmd`/`name` with default `"unknown"`, and
copy every entry of `params` unchanged into a fresh object. -/
def processCommand (cmd : Json) : Json :=
  let m := jsOr (cmd.getField "method")
            (jsOr (cmd.getField "cmd") (jsOr (cmd.getField "name") (.str "unknown")))
  let ps :=
    match cmd.getField "params" with
    | some p => if p.truthy then jsObjectEntries p else []
    | none => []
  .obj [("method", m), ("params", .obj ps)]

/-! The Snapshot Extractor: the per-layer loop of `compositor-service.js`
123-175. Each discovered layer's interaction with the protocol client is one
of three outcomes: `makeSnapshot` throws; `makeSnapshot` returns a handle but
`snapshotCommandLog` throws; or both succeed, `snapshotCommandLog` returning
`commandLog` (possibly absent). -/

/-- How the protocol client behaves for one discovered layer. -/
inductive LayerOutcome where
  | makeFails
  | logFails (snapshotId : Nat)
  | ok (snapshotId : Nat) (commandLog : Option Json)

/-- The intermediate `commands` value of `compositor-service.js` 137-146:
parse a string log with the external `JSON.parse` (given as `parse`; a throw
is `none`), take an array log as is, and read `commands` from an object log,
defaulting to the one-element array holding the log itself. Number and
boolean logs assign nothing. -/
def rawCommandsOf (parse : String → Option Json) (log : Json) : Option Json :=
  match log with
  | .str s => parse s
  | .arr xs => some (.arr xs)
  | .obj kvs => some (jsOr (lookupField kvs "commands") (.arr [.obj kvs]))
  | _ => none

/-- Lines 148-167: when the decoded value is an array, filter script-like
text commands and contribute the rest; otherwise contribute nothing. -/
def extractFromLog (parse : String → Option Json) (log : Json) : List Json :=
  match rawCommandsOf parse log with
  | some (.arr cs) => filterScriptCommands cs
  | _ => []

/-- What one run of the per-layer loop accumulated: the commands pushed onto
`allCommands`, and the snapshot handles passed to `makeSnapshot` and to
`releaseSnapshot`. -/
structure ExtractTrace where
  commands : List Json
  made : List Nat
  released : List Nat

/-- One iteration of the loop body (lines 124-174). On `logFails` the catch
on line 172 is reached before line 171 runs, so the handle made on line 125
is never released. -/
def extractLayerStep (parse : String → Option Json) (st : ExtractTrace) :
    LayerOutcome → ExtractTrace
  | .makeFails => st
  | .logFails sid => { st with made := st.made ++ [sid] }
  | .ok sid log? =>
    { commands := st.commands ++ (match log? with
        | some log => extractFromLog parse log
        | none => []),
      made := st.made ++ [sid],
      released := st.released ++ [sid] }

/-- The whole per-layer loop over the discovered layers. -/
def extractPaintCommandsLoop (parse : String → Option Json)
    (layers : List LayerOutcome) : ExtractTrace :=
  layers.foldl (extractLayerStep parse) ⟨[], [], []⟩

/-! Layer Discovery: `compositor-service.js` 100-117. A single
`layerTreeDidChange` listener raced against a 1000 ms timer; the model is the
deterministic-scheduler reading of `Promise.race`: the event's layers win
when the event fires strictly before the timer, and the timer's empty list
wins otherwise (also when the event never fires). One attempt, no retry. -/

/-- The timeout bound of the race, from `setTimeout(..., 1000)` on line 114. -/
def layerDiscoveryTimeoutMs : Nat := 1000

/-- The raced layer discovery: `arrival` is the event's delivery time and
per-layer outcomes, or `none` when no event fires. -/
def discoverLayers (arrival : Option (Nat × List LayerOutcome)) :
    List LayerOutcome :=
  match arrival with
  | some (t, layers) => if t < layerDiscoveryTimeoutMs then layers else []
  | none => []

/-! The fingerprint-mode Artifact and the Baseline/Actual Store. Artifacts
are persisted as JSON documents and read back with `JSON.parse`; the store
keeps them typed, the round trip through text being the identity on this
data. Pixel artifacts live at `.png` paths and are kept as images. -/

/-- The `metadata` block of an artifact. -/
structure Metadata where
  url : String
  viewport : Nat × Nat
  userAgent : String
deriving DecidableEq

/-- A fingerprint-mode artifact as `captureCompositorData` builds it. The
success path sets `mode: 'compositor'` and no `error`; the error path sets
`error` and no `mode`. -/
structure CompositorData where
  name : String
  timestamp : String
  hash : String
  mode : Option String
  layerCount : Nat
  commands : List Json
  error : Option String
  metadata : Metadata

/-- A raster image: dimensions and RGBA bytes, row-major, 4 bytes a pixel. -/
structure Image where
  width : Nat
  height : Nat
  data : List Nat
deriving DecidableEq

/-- The on-disk store: artifact documents at `.json` paths and images at
`.png` paths, each an association list keyed by path, last write wins. -/
structure Store where
  jsonFiles : List (String × CompositorData)
  pngFiles : List (String × Image)

/-- Look up an association list, most recent write first. -/
def alistFind {α : Type} (l : List (String × α)) (k : String) : Option α :=
  match l with
  | [] => none
  | (k', v) :: rest => if k' = k then some v else alistFind rest k

/-- Read the artifact document at a path, `none` when the file is missing. -/
def Store.readJson (st : Store) (p : String) : Option CompositorData :=
  alistFind st.jsonFiles p

/-- Read the image at a path, `none` when the file is missing. -/
def Store.readPng (st : Store) (p : String) : Option Image :=
  alistFind st.pngFiles p

/-- `fs.writeFileSync` of an artifact document. -/
def Store.writeJson (st : Store) (p : String) (d : CompositorData) : Store :=
  { st with jsonFiles := (p, d) :: st.jsonFiles }

/-- `fs.writeFileSync` of an image. -/
def Store.writePng (st : Store) (p : String) (img : Image) : Store :=
  { st with pngFiles := (p, img) :: st.pngFiles }

/-- `path.join(dir, file)`. -/
def pathJoin (dir file : String) : String := dir ++ "/" ++ file

/-- The service options of `compositor-service.js` 6-21 that the embedded
operations consult. -/
structure ServiceOptions where
  baselineDir : String
  actualDir : String
  diffDir : String
  updateBaseline : Bool
  mode : String

/-! `captureCompositorData` (`compositor-service.js` 51-287). The browser and
protocol session are the environment: a successful run supplies the raced
layer-tree event, the external `JSON.parse`, the DOM-derived text commands,
the metadata and the clock; a failed run supplies the thrown error's message
and what the catch block still reads from the environment. -/

/-- The environment of one successful pass through the try block. -/
structure CaptureEnv where
  arrival : Option (Nat × List LayerOutcome)
  parse : String → Option Json
  domTexts : List Json
  meta : Metadata
  nowIso : String

/-- One run of `captureCompositorData`: the try body runs to the end, or some
await in it throws and the catch block takes over with the clock at `nowMs`. -/
inductive CaptureRun where
  | ok (env : CaptureEnv)
  | fails (message : String) (meta : Metadata) (nowIso : String) (nowMs : Nat)

/-- `JSON.stringify(processedCommands)` on line 241. -/
def stringifyCommands (cs : List Json) : String :=
  (Json.arr cs).stringify

/-- Lines 241-242: the 16-character truncation of the SHA-256 hex digest of
the serialized command sequence. -/
def captureHash (cs : List Json) : String :=
  substrTake (sha256hex (stringifyCommands cs)) 16

/-- The data object built by a successful try body (lines 100-257): discover
layers, run the per-layer loop, append the DOM text commands, process every
command, and hash the result. -/
def captureBody (env : CaptureEnv) (name : String) : CompositorData :=
  let layers := discoverLayers env.arrival
  let allCommands := (extractPaintCommandsLoop env.parse layers).commands ++ env.domTexts
  let processedCommands := allCommands.map processCommand
  { name := name
    timestamp := env.nowIso
    hash := captureHash processedCommands
    mode := some "compositor"
    layerCount := layers.length
    commands := processedCommands
    error := none
    metadata := env.meta }

/-- The degenerate artifact the catch block builds (lines 267-279). -/
def errorData (name message nowIso : String) (nowMs : Nat) (meta : Metadata) :
    CompositorData :=
  { name := name
    timestamp := nowIso
    hash := "error-" ++ toString nowMs
    mode := none
    layerCount := 0
    commands := []
    error := some message
    metadata := meta }

/-- The directory a capture persists into (lines 259, 281). -/
def captureDir (opts : ServiceOptions) : String :=
  if opts.updateBaseline then opts.baselineDir else opts.actualDir

/-- `captureCompositorData`: both the success path (lines 52-263) and the
catch path (lines 264-286) build an artifact, persist it under
`<dir>/<name>.json`, and return it — the catch never rethrows. -/
def captureCompositorData (opts : ServiceOptions) (name : String)
    (run : CaptureRun) (st : Store) : CompositorData × Store :=
  let data :=
    match run with
    | .ok env => captureBody env name
    | .fails message meta nowIso nowMs => errorData name message nowIso nowMs meta
  (data, st.writeJson (pathJoin (captureDir opts) (name ++ ".json")) data)

/-! The Diff Engine: `generateDiff` (`compositor-service.js` 400-427). -/

/-- The three positional difference classes. The loop pushes an index into at
most one list per iteration, in increasing index order. -/
structure Diff where
  added : List (Nat × Json)
  removed : List (Nat × Json)
  modified : List (Nat × Json × Json)

/-- Line 417's structural-inequality test: `JSON.stringify(baseline) !==
JSON.stringify(actual)`. -/
def commandsDiffer (bc ac : Json) : Bool :=
  bc.stringify != ac.stringify

/-- `generateDiff`: over `0 ≤ i < max` of the two lengths, an index with no
baseline entry is added, one with no actual entry is removed, and one whose
entries serialize differently is modified (commands are objects, so an
entry's JavaScript-falsiness is exactly its absence). -/
def generateDiff (baselineCommands actualCommands : List Json) : Diff :=
  let maxLen := max baselineCommands.length actualCommands.length
  { added := (List.range maxLen).filterMap fun i =>
      match baselineCommands[i]?, actualCommands[i]? with
      | none, some ac => some (i, ac)
      | _, _ => none
    removed := (List.range maxLen).filterMap fun i =>
      match baselineCommands[i]?, actualCommands[i]? with
      | some bc, none => some (i, bc)
      | _, _ => none
    modified := (List.range maxLen).filterMap fun i =>
      match baselineCommands[i]?, actualCommands[i]? with
      | some bc, some ac =>
        if commandsDiffer bc ac then some (i, bc, ac) else none
      | _, _ => none }

/-- The result object of a comparison. JavaScript result objects carry
different fields on different paths; a field a path does not set is `none`. -/
structure CompareResult where
  status : String
  message : Option String
  mode : String
  hash : Option String
  baseline : Option String
  actual : Option String
  matched : Option Bool
  diff : Option Diff
  layerCountBaseline : Option Nat
  layerCountActual : Option Nat
  mismatchedPixels : Option Nat
  totalPixels : Option Nat

/-- `compareCompositorData` (`compositor-service.js` 289-332): with no
baseline file, capture, persist the captured data as the baseline and report
`created`; otherwise capture the actual, load the baseline — read on line 309
only after the capture, which itself wrote into `baselineDir` when
`updateBaseline` is set — compare hashes, and attach a positional diff on
mismatch. The `error` outcome stands for a thrown `readFileSync`; the
baseline file was seen by `existsSync` and captures only add files, so it is
unreachable. -/
def compareCompositorData (opts : ServiceOptions) (name : String)
    (run : CaptureRun) (st : Store) : Except String (CompareResult × Store) :=
  let baselinePath := pathJoin opts.baselineDir (name ++ ".json")
  match st.readJson baselinePath with
  | none =>
    let data := (captureCompositorData opts name run st).1
    let st1 := (captureCompositorData opts name run st).2
    .ok ({ status := "created", message := some "Baseline created",
           mode := "compositor", hash := some data.hash,
           baseline := none, actual := none, matched := none, diff := none,
           layerCountBaseline := none, layerCountActual := none,
           mismatchedPixels := none, totalPixels := none },
         st1.writeJson baselinePath data)
  | some _ =>
    let actualData := (captureCompositorData opts name run st).1
    let st1 := (captureCompositorData opts name run st).2
    match st1.readJson baselinePath with
    | none => .error "ENOENT"
    | some baselineData =>
      let m := baselineData.hash = actualData.hash
      .ok ({ status := if m then "match" else "mismatch", message := none,
             mode := "compositor", hash := none,
             baseline := some baselineData.hash, actual := some actualData.hash,
             matched := some (decide m),
             diff := if m then none
               else some (generateDiff baselineData.commands actualData.commands),
             layerCountBaseline := some baselineData.layerCount,
             layerCountActual := some actualData.layerCount,
             mismatchedPixels := none, totalPixels := none },
           st1)

/-! The Pixel Capture Strategy. `pixelmatch` and `sharp` are external
libraries; their contracts are embedded: `pixelmatch` refuses buffers of
different lengths (which is why `capture-pixels.js` resizes first and why the
claim about the service path fails), and `sharp(...).resize(...)` yields an
image of exactly the requested dimensions, modelled as nearest-neighbour
resampling. The per-pixel colour-distance threshold is floating-point; the
mismatch count is modelled as exact RGBA inequality, which no claim here
inspects beyond zero/nonzero at identical or disjoint inputs. -/

/-- The external `pixelmatch(img1, img2, output, width, height, opts)`:
throws `Image sizes do not match.` on buffers of different lengths, throws
when the buffer length disagrees with `width*height*4`, else returns the
number of differing pixels. -/
def pixelmatch (img1 img2 : List Nat) (width height : Nat) : Except String Nat :=
  if img1.length ≠ img2.length then .error "Image sizes do not match."
  else if img1.length ≠ width * height * 4 then
    .error "Image data size does not match width/height."
  else .ok ((List.range (width * height)).countP fun i =>
    !((img1.drop (4 * i)).take 4 == (img2.drop (4 * i)).take 4))

/-- The four RGBA bytes of the pixel at `(x, y)`. -/
def Image.pixelBytes (img : Image) (x y : Nat) : List Nat :=
  let off := (y * img.width + x) * 4
  [img.data.getD off 0, img.data.getD (off + 1) 0,
   img.data.getD (off + 2) 0, img.data.getD (off + 3) 0]

/-- The external `sharp(path).resize({height, width})`: an image of exactly
the requested dimensions, here by nearest-neighbour sampling. -/
def sharpResize (img : Image) (w h : Nat) : Image :=
  { width := w, height := h,
    data := (List.range (w * h)).flatMap fun i =>
      img.pixelBytes (i % w * img.width / w) (i / w * img.height / h) }

/-- The diff image `pixelmatch` paints into the output buffer: baseline
dimensions, mismatching pixels marked. -/
def diffImage (w h : Nat) (img1 img2 : List Nat) : Image :=
  { width := w, height := h,
    data := (List.range (w * h)).flatMap fun i =>
      if (img1.drop (4 * i)).take 4 == (img2.drop (4 * i)).take 4
      then [0, 0, 0, 0] else [255, 0, 0, 255] }

/-- `fs.unlinkSync` wrapped in the source's try/catch: remove a png if
present, do nothing otherwise. -/
def Store.deletePng (st : Store) (p : String) : Store :=
  { st with pngFiles := st.pngFiles.filter fun q => q.1 ≠ p }

/-- `capturePixelData` (`compositor-service.js` 334-346): persist the
screenshot under `<dir>/<name>.png` and return the path written. -/
def capturePixelData (opts : ServiceOptions) (name : String)
    (screenshot : Image) (st : Store) : String × Store :=
  let filePath := pathJoin (captureDir opts) (name ++ ".png")
  (filePath, st.writePng filePath screenshot)

/-- `comparePixelData` (`compositor-service.js` 348-398): with no baseline,
capture and copy it to the baseline path, reporting `created`; otherwise
capture, read both images back, and run `pixelmatch` at the baseline's
dimensions — with no resampling, so a thrown size mismatch propagates. An
`error` outcome is a throw reaching the caller. -/
def comparePixelData (opts : ServiceOptions) (name : String)
    (screenshot : Image) (st : Store) : Except String (CompareResult × Store) :=
  let baselinePath := pathJoin opts.baselineDir (name ++ ".png")
  let actualPath := pathJoin opts.actualDir (name ++ ".png")
  match st.readPng baselinePath with
  | none =>
    let capturedPath := (capturePixelData opts name screenshot st).1
    let st1 := (capturePixelData opts name screenshot st).2
    match st1.readPng capturedPath with
    | none => .error "ENOENT"
    | some img =>
      .ok ({ status := "created", message := some "Baseline created",
             mode := "pixel", hash := none, baseline := none, actual := none,
             matched := none, diff := none, layerCountBaseline := none,
             layerCountActual := none, mismatchedPixels := none,
             totalPixels := none },
           st1.writePng baselinePath img)
  | some _ =>
    let st1 := (capturePixelData opts name screenshot st).2
    match st1.readPng baselinePath, st1.readPng actualPath with
    | some baseline, some actual =>
      match pixelmatch baseline.data actual.data baseline.width baseline.height with
      | .error e => .error e
      | .ok mismatchedPixels =>
        let st2 :=
          if mismatchedPixels > 0 then
            st1.writePng (pathJoin opts.diffDir (name ++ "-diff.png"))
              (diffImage baseline.width baseline.height baseline.data actual.data)
          else st1
        .ok ({ status := if mismatchedPixels = 0 then "match" else "mismatch",
               message := none, mode := "pixel", hash := none,
               baseline := none, actual := none,
               matched := some (mismatchedPixels == 0), diff := none,
               layerCountBaseline := none, layerCountActual := none,
               mismatchedPixels := some mismatchedPixels,
               totalPixels := some (baseline.width * baseline.height) },
             st2)
    | _, _ => .error "ENOENT"

/-- What `matchImageSnapshot` returns: `null` when a read-back failed, a
first-run marker, or the comparison counts. The floating diff percentage is
derived from the two counts and not modelled separately. -/
structure SnapResult where
  matched : Bool
  firstRun : Bool
  mismatchedPixels : Option Nat
  totalPixels : Option Nat
deriving DecidableEq

/-- `imagesHaveSameSize` (`capture-pixels.js` 164-167). -/
def imagesHaveSameSize (a b : Image) : Bool :=
  a.height == b.height && a.width == b.width

/-- `matchImageSnapshot` (`capture-pixels.js` 54-162): first run saves the
baseline; later runs save the actual, resize it to the baseline's dimensions
when the sizes differ — reading the resized file back and comparing that —
then compare at the baseline's dimensions, delete the temporary resized
file, and keep or delete the diff image as the count dictates. -/
def matchImageSnapshot (imageData : Image)
    (snapshotName baselineFolder actualFolder diffFolder : String)
    (st : Store) : Except String (Option SnapResult × Store) :=
  let baselineScreenshotPath := baselineFolder ++ "/" ++ snapshotName
  let actualScreenshotPath := actualFolder ++ "/" ++ snapshotName
  let diffScreenshotPath := diffFolder ++ "/" ++ snapshotName
  let resizedActualScreenshotPath := actualFolder ++ "/resize-" ++ snapshotName
  match st.readPng baselineScreenshotPath with
  | none =>
    .ok (some { matched := true, firstRun := true,
                mismatchedPixels := none, totalPixels := none },
         st.writePng baselineScreenshotPath imageData)
  | some _ =>
    let st1 := st.writePng actualScreenshotPath imageData
    match st1.readPng baselineScreenshotPath, st1.readPng actualScreenshotPath with
    | some baseLineImage, some actualImage =>
      let needsResize := !imagesHaveSameSize baseLineImage actualImage
      let st2 :=
        if needsResize then
          st1.writePng resizedActualScreenshotPath
            (sharpResize actualImage baseLineImage.width baseLineImage.height)
        else st1
      let resizedActualImage :=
        if needsResize then st2.readPng resizedActualScreenshotPath else none
      let compared := (resizedActualImage.getD actualImage).data
      match pixelmatch baseLineImage.data compared
              baseLineImage.width baseLineImage.height with
      | .error e => .error e
      | .ok mismatchedPixels =>
        let st3 := if needsResize then st2.deletePng resizedActualScreenshotPath else st2
        let st4 :=
          if mismatchedPixels = 0 then st3.deletePng diffScreenshotPath
          else st3.writePng diffScreenshotPath
            (diffImage baseLineImage.width baseLineImage.height
              baseLineImage.data compared)
        .ok (some { matched := mismatchedPixels = 0, firstRun := false,
                    mismatchedPixels := some mismatchedPixels,
                    totalPixels := some (baseLineImage.width * baseLineImage.height) },
             st4)
    | _, _ => .ok (none, st1)

/-- The unified `compare` (`compositor-service.js` 44-49): the pixel strategy
when the service's mode is `pixel`, the fingerprint strategy otherwise. -/
def compareDispatch (opts : ServiceOptions) (name : String) (run : CaptureRun)
    (screenshot : Image) (st : Store) : Except String (CompareResult × Store) :=
  if opts.mode = "pixel" then comparePixelData opts name screenshot st
  else compareCompositorData opts name run st

/-! Characterizations of the Diff Engine's three classes. -/

/-- An index/command pair is in `added` exactly when the index is past the
baseline's end and the actual sequence has that command there. -/
theorem generateDiff_added_iff (b a : List Json) (i : Nat) (c : Json) :
    (i, c) ∈ (generateDiff b a).added ↔ b.length ≤ i ∧ a[i]? = some c := by
  simp only [generateDiff, List.mem_filterMap, List.mem_range]
  constructor
  · rintro ⟨j, hj, hmatch⟩
    split at hmatch
    · rename_i hb ha
      obtain ⟨hi, hc⟩ := Prod.mk.injEq .. ▸ Option.some.injEq .. ▸ hmatch
      subst hi; subst hc
      exact ⟨List.getElem?_eq_none_iff.mp hb, ha⟩
    · exact absurd hmatch (by simp)
  · rintro ⟨hb, ha⟩
    refine ⟨i, ?_, ?_⟩
    · exact lt_of_lt_of_le (List.getElem?_eq_some_iff.mp ha).1 (le_max_right _ _)
    · rw [List.getElem?_eq_none_iff.mpr hb, ha]


/-- An index/command pair is in `removed` exactly when the index is past the
actual's end and the baseline has that command there. -/
theorem generateDiff_removed_iff (b a : List Json) (i : Nat) (c : Json) :
    (i, c) ∈ (generateDiff b a).removed ↔ a.length ≤ i ∧ b[i]? = some c := by
  simp only [generateDiff, List.mem_filterMap, List.mem_range]
  constructor
  · rintro ⟨j, hj, hmatch⟩
    split at hmatch
    · rename_i hb ha
      injection hmatch with h
      injection h with h1 h2
      subst h1; subst h2
      exact ⟨List.getElem?_eq_none_iff.mp ha, hb⟩
    · exact absurd hmatch (by simp)
  · rintro ⟨ha, hb⟩
    refine ⟨i, ?_, ?_⟩
    · exact lt_of_lt_of_le (List.getElem?_eq_some_iff.mp hb).1 (le_max_left _ _)
    · simp [List.getElem?_eq_none_iff.mpr ha, hb]

/-- An index with both commands is in `modified` exactly when the two
serialize differently. -/
theorem generateDiff_modified_iff (b a : List Json) (i : Nat) (bc ac : Json) :
    (i, bc, ac) ∈ (generateDiff b a).modified ↔
      b[i]? = some bc ∧ a[i]? = some ac ∧ commandsDiffer bc ac = true := by
  simp only [generateDiff, List.mem_filterMap, List.mem_range]
  constructor
  · rintro ⟨j, hj, hmatch⟩
    split at hmatch
    · rename_i bc' ac' hb ha
      by_cases hd : commandsDiffer bc' ac' = true
      · rw [if_pos hd] at hmatch
        injection hmatch with h
        injection h with h1 h2
        injection h2 with h3 h4
        subst h1; subst h3; subst h4
        exact ⟨hb, ha, hd⟩
      · rw [if_neg hd] at hmatch
        exact absurd hmatch (by simp)
    all_goals exact absurd hmatch (by simp)
  · rintro ⟨hb, ha, hd⟩
    refine ⟨i, ?_, ?_⟩
    · exact lt_of_lt_of_le (List.getElem?_eq_some_iff.mp hb).1 (le_max_left _ _)
    · simp [hb, ha, hd]

/-- Example command `A` of the spec's diff-correctness property. -/
def exA : Json := .obj [("method", .str "drawRect"), ("params", .obj [("x", .num 0)])]

/-- Example command `B`, baseline index 1. -/
def exB : Json := .obj [("method", .str "drawRect"), ("params", .obj [("x", .num 1)])]

/-- Example command `X`, actual index 1, structurally unequal to `B`. -/
def exX : Json := .obj [("method", .str "drawRect"), ("params", .obj [("x", .num 2)])]

/-- Example command `C`, shared index 2. -/
def exC : Json := .obj [("method", .str "drawRect"), ("params", .obj [("x", .num 3)])]

/-- Example command `D`, actual index 3, beyond the baseline. -/
def exD : Json := .obj [("method", .str "drawTextBlob"), ("params", .obj [("text", .str "hi")])]

/-- Claim C1: the diff engine iterates over the longer sequence and
classifies each index positionally — no baseline entry is `added` with the
actual command, no actual entry is `removed` with the baseline command, both
present but structurally unequal is `modified` with both; and on baseline
`[A,B,C]` against actual `[A,X,C,D]` the diff is exactly
`modified = [(1, B, X)]`, `added = [(3, D)]`, `removed = []`. -/
theorem diff_positional_classification :
    (∀ b a : List Json,
      (∀ i c, (i, c) ∈ (generateDiff b a).added ↔ b.length ≤ i ∧ a[i]? = some c) ∧
      (∀ i c, (i, c) ∈ (generateDiff b a).removed ↔ a.length ≤ i ∧ b[i]? = some c) ∧
      (∀ i bc ac, (i, bc, ac) ∈ (generateDiff b a).modified ↔
        b[i]? = some bc ∧ a[i]? = some ac ∧ commandsDiffer bc ac = true)) ∧
    generateDiff [exA, exB, exC] [exA, exX, exC, exD] =
      { added := [(3, exD)], removed := [], modified := [(1, exB, exX)] } := by
  refine ⟨fun b a => ⟨?_, ?_, ?_⟩, ?_⟩
  · exact fun i c => generateDiff_added_iff b a i c
  · exact fun i c => generateDiff_removed_iff b a i c
  · exact fun i bc ac => generateDiff_modified_iff b a i bc ac
  · rfl

/-- Claim C10: the diff assigns each index to at most one of the three
classes; added entries sit at or past the baseline's length and removed
entries at or past the actual's length, so at most one of the added and
removed lists is non-empty. -/
theorem diff_classes_disjoint :
    ∀ b a : List Json,
      (∀ i c, (i, c) ∈ (generateDiff b a).added → b.length ≤ i) ∧
      (∀ i c, (i, c) ∈ (generateDiff b a).removed → a.length ≤ i) ∧
      (∀ i c c', (i, c) ∈ (generateDiff b a).added →
        (i, c') ∉ (generateDiff b a).removed) ∧
      (∀ i c bc ac, (i, c) ∈ (generateDiff b a).added →
        (i, bc, ac) ∉ (generateDiff b a).modified) ∧
      (∀ i c bc ac, (i, c) ∈ (generateDiff b a).removed →
        (i, bc, ac) ∉ (generateDiff b a).modified) ∧
      ((generateDiff b a).added ≠ [] → (generateDiff b a).removed = []) := by
  intro b a
  refine ⟨?_, ?_, ?_, ?_, ?_, ?_⟩
  · exact fun i c h => ((generateDiff_added_iff b a i c).mp h).1
  · exact fun i c h => ((generateDiff_removed_iff b a i c).mp h).1
  · intro i c c' h h'
    have h1 := ((generateDiff_added_iff b a i c).mp h).1
    obtain ⟨hlt, -⟩ :=
      List.getElem?_eq_some_iff.mp ((generateDiff_removed_iff b a i c').mp h').2
    omega
  · intro i c bc ac h h'
    have h1 := ((generateDiff_added_iff b a i c).mp h).1
    obtain ⟨hlt, -⟩ :=
      List.getElem?_eq_some_iff.mp ((generateDiff_modified_iff b a i bc ac).mp h').1
    omega
  · intro i c bc ac h h'
    have h1 := ((generateDiff_removed_iff b a i c).mp h).1
    obtain ⟨hlt, -⟩ :=
      List.getElem?_eq_some_iff.mp
        ((generateDiff_modified_iff b a i bc ac).mp h').2.1
    omega
  · intro hne
    obtain ⟨⟨i, c⟩, hic⟩ := List.exists_mem_of_ne_nil _ hne
    have h1 := (generateDiff_added_iff b a i c).mp hic
    obtain ⟨hia, -⟩ := List.getElem?_eq_some_iff.mp h1.2
    by_contra hrne
    obtain ⟨⟨j, d⟩, hjd⟩ := List.exists_mem_of_ne_nil _ hrne
    have h2 := (generateDiff_removed_iff b a j d).mp hjd
    obtain ⟨hjb, -⟩ := List.getElem?_eq_some_iff.mp h2.2
    omega

/-- A pattern that begins a list still does so after shortening the pattern. -/
theorem beginsWith_of_append (p q l : List Char)
    (h : beginsWith (p ++ q) l = true) : beginsWith p l = true := by
  induction p generalizing l with
  | nil => rfl
  | cons c cs ih =>
    cases l with
    | nil => simp [beginsWith] at h
    | cons d ds =>
      simp only [List.cons_append, beginsWith, Bool.and_eq_true] at h ⊢
      exact ⟨h.1, ih ds h.2⟩

/-- A substring occurrence survives shortening the pattern. -/
theorem hasSubChars_of_append (p q l : List Char)
    (h : hasSubChars (p ++ q) l = true) : hasSubChars p l = true := by
  induction l with
  | nil =>
    cases p with
    | nil => rfl
    | cons c cs => simp [hasSubChars, beginsWith] at h
  | cons d ds ih =>
    simp only [hasSubChars, Bool.or_eq_true] at h ⊢
    rcases h with h | h
    · exact Or.inl (beginsWith_of_append p q (d :: ds) h)
    · exact Or.inr (ih h)

/-- A text containing `function(` also contains `function`, so it trips the
filter's `function` test. -/
theorem containsSub_function_of_paren (t : String)
    (h : containsSub t "function(" = true) : containsSub t "function" = true := by
  have hd : ("function(").data = ("function").data ++ ['('] := rfl
  rw [containsSub, hd] at h
  exact hasSubChars_of_append _ _ _ h

/-- Claim C7: a text-draw command whose truthy text payload resembles
injected script — in particular contains `function(`, or any of the filter's
declaration/DOM/window/arrow/length tests fire — is excluded from the
filtered output of the normalizer. -/
theorem script_commands_filtered (cs : List Json) (cmd : Json) (t : String)
    (hm : cmd.getField "method" = some (.str "drawTextBlob"))
    (ht : textParam cmd = some t)
    (hs : containsSub t "function(" = true ∨ isScriptText t = true) :
    cmd ∉ filterScriptCommands cs := by
  intro hmem
  have hk : keepCommand cmd = true := (List.mem_filter.mp hmem).2
  have hscript : isScriptText t = true := by
    rcases hs with h | h
    · unfold isScriptText
      simp [containsSub_function_of_paren t h]
    · exact h
  rw [keepCommand, hm, ht] at hk
  simp [hscript] at hk

/-- The filter input of the witness: a `drawTextBlob` carrying script text. -/
def exScripty : Json :=
  .obj [("method", .str "drawTextBlob"), ("params", .obj [("text", .str "function(x)")])]

/-- The filter drops the concrete script-bearing text command. -/
theorem script_commands_filtered_witness :
    exScripty.getField "method" = some (.str "drawTextBlob") ∧
    textParam exScripty = some "function(x)" ∧
    (containsSub "function(x)" "function(" = true ∨
      isScriptText "function(x)" = true) ∧
    exScripty ∉ filterScriptCommands [exScripty] :=
  ⟨rfl, rfl, Or.inl (by decide),
    script_commands_filtered [exScripty] exScripty "function(x)" rfl rfl
      (Or.inl (by decide))⟩

/-- A raw command whose params carry a resource id and a timestamp — a
deny-listed opaque field and a time-dependent field. -/
def exDenyRaw : Json :=
  .obj [("method", .str "drawRect"),
        ("params", .obj [("resourceId", .num 7), ("timestamp", .num 123456)])]

/-- Claim C3 counterexample: the processing step of
`compositor-service.js` 225-238 copies every entry of `params`; the
deny-listed `resourceId` and the time-dependent `timestamp` both appear
unchanged in the normalized command, so no deny-list is applied. -/
theorem normalizer_keeps_denylisted_fields :
    (processCommand exDenyRaw).getField "params" =
      some (.obj [("resourceId", .num 7), ("timestamp", .num 123456)]) := rfl

/-- Claim C3 amended: for every raw entry whose `params` is an object, the
normalized command's params are exactly the raw entries, copied verbatim in
order — nothing, deny-listed or otherwise, is excluded. -/
theorem normalizer_copies_params_verbatim (cmd : Json)
    (kvs : List (String × Json))
    (hp : cmd.getField "params" = some (.obj kvs)) :
    (processCommand cmd).getField "params" = some (.obj kvs) := by
  unfold processCommand
  rw [hp]
  simp [Json.truthy, jsObjectEntries, Json.getField, lookupField]

/-- The verbatim copy evaluated on the concrete deny-list example. -/
theorem normalizer_copies_params_verbatim_witness :
    exDenyRaw.getField "params" =
      some (.obj [("resourceId", .num 7), ("timestamp", .num 123456)]) ∧
    (processCommand exDenyRaw).getField "params" =
      some (.obj [("resourceId", .num 7), ("timestamp", .num 123456)]) :=
  ⟨rfl, normalizer_copies_params_verbatim exDenyRaw
    [("resourceId", .num 7), ("timestamp", .num 123456)] rfl⟩

/-- The handle one outcome passes to `makeSnapshot`, when the call returns. -/
def madeOf : LayerOutcome → Option Nat
  | .makeFails => none
  | .logFails sid => some sid
  | .ok sid _ => some sid

/-- The handle one outcome passes to `releaseSnapshot`: only when the whole
iteration body ran, that is when the command log request also succeeded. -/
def releasedOf : LayerOutcome → Option Nat
  | .makeFails => none
  | .logFails _ => none
  | .ok sid _ => some sid

/-- The loop's made/released handle lists, from any starting accumulator. -/
theorem extractLoop_trace_acc (parse : String → Option Json)
    (layers : List LayerOutcome) (st : ExtractTrace) :
    (layers.foldl (extractLayerStep parse) st).made =
      st.made ++ layers.filterMap madeOf ∧
    (layers.foldl (extractLayerStep parse) st).released =
      st.released ++ layers.filterMap releasedOf := by
  induction layers generalizing st with
  | nil => simp
  | cons o os ih =>
    obtain ⟨ihm, ihr⟩ := ih (extractLayerStep parse st o)
    cases o with
    | makeFails =>
      simpa [extractLayerStep, madeOf, releasedOf] using ih st
    | logFails sid =>
      refine ⟨?_, ?_⟩
      · simpa [extractLayerStep, madeOf, releasedOf] using ihm
      · simpa [extractLayerStep, madeOf, releasedOf] using ihr
    | ok sid log? =>
      refine ⟨?_, ?_⟩
      · simpa [extractLayerStep, madeOf, releasedOf] using ihm
      · simpa [extractLayerStep, madeOf, releasedOf] using ihr

/-- Claim C4 counterexample: for a layer whose command-log request throws,
the handle given out by `makeSnapshot` is never passed to `releaseSnapshot`
— the catch on line 172 of `compositor-service.js` is entered before line
171 runs, so this exit path skips the release. -/
theorem snapshot_leaked_on_log_failure :
    (extractPaintCommandsLoop (fun _ => none) [.logFails 1]).made = [1] ∧
    (extractPaintCommandsLoop (fun _ => none) [.logFails 1]).released = [] :=
  ⟨rfl, rfl⟩

/-- Claim C4 amended: the extractor releases exactly the handles of layers
whose snapshot and command-log requests both succeed; a handle whose
command-log request fails is made but not released. -/
theorem snapshot_release_exactly_on_success (parse : String → Option Json)
    (layers : List LayerOutcome) :
    (extractPaintCommandsLoop parse layers).made = layers.filterMap madeOf ∧
    (extractPaintCommandsLoop parse layers).released =
      layers.filterMap releasedOf ∧
    (∀ sid, sid ∈ (extractPaintCommandsLoop parse layers).released ↔
      ∃ log?, LayerOutcome.ok sid log? ∈ layers) ∧
    (∀ sid, sid ∈ (extractPaintCommandsLoop parse layers).made ↔
      (∃ log?, LayerOutcome.ok sid log? ∈ layers) ∨
        LayerOutcome.logFails sid ∈ layers) := by
  obtain ⟨hm, hr⟩ := extractLoop_trace_acc parse layers ⟨[], [], []⟩
  have hm' : (extractPaintCommandsLoop parse layers).made =
      layers.filterMap madeOf := by simpa [extractPaintCommandsLoop] using hm
  have hr' : (extractPaintCommandsLoop parse layers).released =
      layers.filterMap releasedOf := by simpa [extractPaintCommandsLoop] using hr
  refine ⟨hm', hr', ?_, ?_⟩
  · intro sid
    rw [hr', List.mem_filterMap]
    constructor
    · rintro ⟨o, ho, hsome⟩
      cases o with
      | makeFails => exact absurd hsome (by simp [releasedOf])
      | logFails s => exact absurd hsome (by simp [releasedOf])
      | ok s log? =>
        rw [releasedOf] at hsome
        injection hsome with h
        exact ⟨log?, h ▸ ho⟩
    · rintro ⟨log?, ho⟩
      exact ⟨.ok sid log?, ho, rfl⟩
  · intro sid
    rw [hm', List.mem_filterMap]
    constructor
    · rintro ⟨o, ho, hsome⟩
      cases o with
      | makeFails => exact absurd hsome (by simp [madeOf])
      | logFails s =>
        rw [madeOf] at hsome
        injection hsome with h
        exact Or.inr (h ▸ ho)
      | ok s log? =>
        rw [madeOf] at hsome
        injection hsome with h
        exact Or.inl ⟨log?, h ▸ ho⟩
    · rintro (⟨log?, ho⟩ | ho)
      · exact ⟨.ok sid log?, ho, rfl⟩
      · exact ⟨.logFails sid, ho, rfl⟩

/-- Claim C5: a failure raised during fingerprint capture is caught, and the
run returns — and persists at the capture path — a degenerate artifact whose
hash is `error-<ms>`, whose layerCount is 0 and whose command sequence is
empty, instead of propagating the failure. -/
theorem capture_failure_yields_error_artifact :
    ∀ (opts : ServiceOptions) (name message nowIso : String) (nowMs : Nat)
      (meta : Metadata) (st : Store),
      (captureCompositorData opts name
        (.fails message meta nowIso nowMs) st).1.hash =
          "error-" ++ toString nowMs ∧
      (captureCompositorData opts name
        (.fails message meta nowIso nowMs) st).1.layerCount = 0 ∧
      (captureCompositorData opts name
        (.fails message meta nowIso nowMs) st).1.commands = [] ∧
      (captureCompositorData opts name
        (.fails message meta nowIso nowMs) st).2.readJson
          (pathJoin (captureDir opts) (name ++ ".json")) =
        some (captureCompositorData opts name
          (.fails message meta nowIso nowMs) st).1 := by
  intro opts name message nowIso nowMs meta st
  refine ⟨rfl, rfl, rfl, ?_⟩
  simp [captureCompositorData, Store.writeJson, Store.readJson, alistFind]

/-- Claim C8: layer discovery races the layer-tree-changed event against the
1000 ms timer of line 114 in a single attempt; when the event does not beat
the bound the race resolves to an empty layer set rather than throwing, and
the capture still proceeds to a successful artifact with zero layers. -/
theorem discovery_timeout_resolves_empty :
    layerDiscoveryTimeoutMs = 1000 ∧
    discoverLayers none = [] ∧
    (∀ t layers, layerDiscoveryTimeoutMs ≤ t →
      discoverLayers (some (t, layers)) = []) ∧
    (∀ t layers, t < layerDiscoveryTimeoutMs →
      discoverLayers (some (t, layers)) = layers) ∧
    (∀ (parse : String → Option Json) (dom : List Json) (meta : Metadata)
      (iso name : String) (opts : ServiceOptions) (st : Store),
      (captureCompositorData opts name
        (.ok ⟨none, parse, dom, meta, iso⟩) st).1.layerCount = 0 ∧
      (captureCompositorData opts name
        (.ok ⟨none, parse, dom, meta, iso⟩) st).1.error = none) := by
  refine ⟨rfl, rfl, ?_, ?_, ?_⟩
  · intro t layers h
    simp [discoverLayers, Nat.not_lt.mpr h]
  · intro t layers h
    simp [discoverLayers, h]
  · intro parse dom meta iso name opts st
    exact ⟨rfl, rfl⟩

/-- Claim C6: `compare(name)` with no existing baseline is not an error in
either strategy: it captures the current state, persists the capture as the
named baseline, and returns status `created`, after which the baseline loads
successfully. -/
theorem compare_without_baseline_creates (opts : ServiceOptions) (name : String)
    (run : CaptureRun) (screenshot : Image) (st : Store)
    (hjson : st.readJson (pathJoin opts.baselineDir (name ++ ".json")) = none)
    (hpng : st.readPng (pathJoin opts.baselineDir (name ++ ".png")) = none) :
    (∃ res st', compareCompositorData opts name run st = .ok (res, st') ∧
      res.status = "created" ∧
      st'.readJson (pathJoin opts.baselineDir (name ++ ".json")) =
        some (captureCompositorData opts name run st).1) ∧
    (∃ res st', comparePixelData opts name screenshot st = .ok (res, st') ∧
      res.status = "created" ∧
      st'.readPng (pathJoin opts.baselineDir (name ++ ".png")) =
        some screenshot) := by
  have hjson' : alistFind st.jsonFiles (pathJoin opts.baselineDir (name ++ ".json")) = none := hjson
  have hpng' : alistFind st.pngFiles (pathJoin opts.baselineDir (name ++ ".png")) = none := hpng
  constructor
  · simp only [compareCompositorData, captureCompositorData, Store.readJson,
      Store.writeJson, hjson']
    refine ⟨_, _, rfl, rfl, ?_⟩
    simp [captureCompositorData, Store.readJson, Store.writeJson, alistFind]
  · simp only [comparePixelData, capturePixelData, Store.readPng,
      Store.writePng, alistFind, hpng']
    refine ⟨_, _, rfl, rfl, ?_⟩
    simp [Store.readPng, Store.writePng, alistFind]

/-- Concrete service options for witnesses. -/
def wOpts : ServiceOptions :=
  { baselineDir := "./baseline-data", actualDir := "./actual-data",
    diffDir := "./diff-images", updateBaseline := false, mode := "compositor" }

/-- Concrete artifact metadata for witnesses. -/
def wMeta : Metadata :=
  { url := "file:///fixtures/test.html", viewport := (1280, 720),
    userAgent := "ua" }

/-- A concrete capture run for witnesses. -/
def wRun : CaptureRun := .fails "boom" wMeta "2026-01-01T00:00:00.000Z" 5

/-- A concrete 1-by-1 screenshot for witnesses. -/
def wShot : Image := { width := 1, height := 1, data := [0, 0, 0, 255] }

/-- The empty store: no baselines, no actuals. -/
def emptyStore : Store := { jsonFiles := [], pngFiles := [] }

/-- First-run compare evaluated at a concrete name and empty store. -/
theorem compare_without_baseline_creates_witness :
    emptyStore.readJson (pathJoin wOpts.baselineDir ("snap" ++ ".json")) = none ∧
    emptyStore.readPng (pathJoin wOpts.baselineDir ("snap" ++ ".png")) = none ∧
    ((∃ res st', compareCompositorData wOpts "snap" wRun emptyStore =
        .ok (res, st') ∧
      res.status = "created" ∧
      st'.readJson (pathJoin wOpts.baselineDir ("snap" ++ ".json")) =
        some (captureCompositorData wOpts "snap" wRun emptyStore).1) ∧
    (∃ res st', comparePixelData wOpts "snap" wShot emptyStore =
        .ok (res, st') ∧
      res.status = "created" ∧
      st'.readPng (pathJoin wOpts.baselineDir ("snap" ++ ".png")) =
        some wShot)) :=
  ⟨rfl, rfl,
    compare_without_baseline_creates wOpts "snap" wRun wShot emptyStore rfl rfl⟩

/-- Compression preserves the eight-word state shape. -/
theorem foldl_compress_length (blocks : List (List Nat)) (st : List Nat)
    (h : st.length = 8) : (blocks.foldl sha256Compress st).length = 8 := by
  induction blocks generalizing st with
  | nil => exact h
  | cons b bs ih => exact ih _ rfl

/-- A flat map by a fixed-width function multiplies lengths. -/
theorem length_flatMap_const {α β : Type} (f : α → List β) (n : Nat)
    (h : ∀ x, (f x).length = n) (l : List α) :
    (l.flatMap f).length = n * l.length := by
  induction l with
  | nil => simp
  | cons x xs ih =>
    simp only [List.flatMap_cons, List.length_append, ih, h x, List.length_cons]
    ring

/-- The hex digest is always 64 characters: eight words of eight digits. -/
theorem sha256hex_length (s : String) : (sha256hex s).length = 64 := by
  show ((sha256Words (strUtf8 s)).flatMap hexWordChars).length = 64
  rw [length_flatMap_const hexWordChars 8 (fun w => by simp [hexWordChars]),
    sha256Words, foldl_compress_length (toBlocks (sha256pad (strUtf8 s))) sha256H0 rfl]

/-- A normalized sequence whose params keys arrive in non-sorted order. -/
def exKeyed : List Json :=
  [.obj [("method", .str "drawRect"),
         ("params", .obj [("b", .num 1), ("a", .num 2)])]]

/-- Claim C2 counterexample: the serialization the fingerprint hashes is
`JSON.stringify`, which keeps key insertion order; on a command whose params
keys arrive as `b`, `a` it differs from the key-ordered canonical
serialization, so the builder does not serialize key-ordered. -/
theorem serialization_not_key_ordered :
    stringifyCommands exKeyed ≠ specKeyOrderedStringify exKeyed := by decide

/-- With an existing baseline written apart from the capture path, the
comparison reports `match` exactly when the stored baseline's truncated hash
equals the freshly captured artifact's truncated hash. -/
theorem compareCompositorData_match_iff (opts : ServiceOptions) (name : String)
    (run : CaptureRun) (st : Store) (d : CompositorData)
    (hb : st.readJson (pathJoin opts.baselineDir (name ++ ".json")) = some d)
    (hpath : pathJoin (captureDir opts) (name ++ ".json") ≠
      pathJoin opts.baselineDir (name ++ ".json")) :
    ∃ res st', compareCompositorData opts name run st = .ok (res, st') ∧
      (res.status = "match" ↔
        d.hash = (captureCompositorData opts name run st).1.hash) := by
  have hb' : alistFind st.jsonFiles (pathJoin opts.baselineDir (name ++ ".json")) =
      some d := hb
  have hcap : (captureCompositorData opts name run st).2.readJson
      (pathJoin opts.baselineDir (name ++ ".json")) = some d := by
    simp only [captureCompositorData, Store.writeJson, Store.readJson,
      alistFind, if_neg hpath]
    exact hb'
  simp only [compareCompositorData, hb, hcap]
  refine ⟨_, _, rfl, ?_⟩
  by_cases hm : d.hash = (captureCompositorData opts name run st).1.hash
  · simp [hm]
  · simp [hm]

/-- Claim C2 amended: the fingerprint builder hashes the deterministic
insertion-order `JSON.stringify` serialization of the normalized sequence
(not a key-sorted one), truncates the SHA-256 hex digest to its first 16
characters, and two fingerprint artifacts compare as a match exactly when
their truncated hashes are equal. -/
theorem fingerprint_truncated_hash_match (cs : List Json)
    (opts : ServiceOptions) (name : String) (run : CaptureRun) (st : Store)
    (d : CompositorData)
    (hb : st.readJson (pathJoin opts.baselineDir (name ++ ".json")) = some d)
    (hpath : pathJoin (captureDir opts) (name ++ ".json") ≠
      pathJoin opts.baselineDir (name ++ ".json")) :
    captureHash cs = substrTake (sha256hex (stringifyCommands cs)) 16 ∧
    (captureHash cs).length = 16 ∧
    (∃ res st', compareCompositorData opts name run st = .ok (res, st') ∧
      (res.status = "match" ↔
        d.hash = (captureCompositorData opts name run st).1.hash)) := by
  refine ⟨rfl, ?_, compareCompositorData_match_iff opts name run st d hb hpath⟩
  show ((sha256hex (stringifyCommands cs)).data.take 16).length = 16
  have h64 : (sha256hex (stringifyCommands cs)).data.length = 64 :=
    sha256hex_length (stringifyCommands cs)
  rw [List.length_take, h64]
  decide

/-- A stored baseline artifact for the fingerprint witness. -/
def wBase : CompositorData :=
  { name := "snap", timestamp := "t", hash := "cafe",
    mode := some "compositor", layerCount := 0, commands := [],
    error := none, metadata := wMeta }

/-- A store already holding the named baseline. -/
def wStoreWithBaseline : Store :=
  { jsonFiles := [(pathJoin wOpts.baselineDir ("snap" ++ ".json"), wBase)],
    pngFiles := [] }

/-- The truncation and match equivalence evaluated at concrete inputs. -/
theorem fingerprint_truncated_hash_match_witness :
    wStoreWithBaseline.readJson
      (pathJoin wOpts.baselineDir ("snap" ++ ".json")) = some wBase ∧
    pathJoin (captureDir wOpts) ("snap" ++ ".json") ≠
      pathJoin wOpts.baselineDir ("snap" ++ ".json") ∧
    (captureHash [] = substrTake (sha256hex (stringifyCommands [])) 16 ∧
     (captureHash []).length = 16 ∧
     (∃ res st', compareCompositorData wOpts "snap" wRun wStoreWithBaseline =
        .ok (res, st') ∧
       (res.status = "match" ↔
         wBase.hash =
           (captureCompositorData wOpts "snap" wRun wStoreWithBaseline).1.hash))) :=
  ⟨rfl, by decide,
    fingerprint_truncated_hash_match [] wOpts "snap" wRun wStoreWithBaseline
      wBase rfl (by decide)⟩

/-- A 2-by-2 screenshot, dimensioned apart from the 1-by-1 baseline. -/
def wShot2 : Image := { width := 2, height := 2, data := List.replicate 16 7 }

/-- A store holding a 1-by-1 pixel baseline for `snap`. -/
def wStorePixelBaseline : Store :=
  { jsonFiles := [],
    pngFiles := [(pathJoin wOpts.baselineDir ("snap" ++ ".png"), wShot)] }

/-- Claim C9 counterexample: the service's `comparePixelData` never
resamples; on a baseline and actual of different dimensions `pixelmatch`
refuses the differently-sized buffers and the comparison ends in an error
instead of completing. -/
theorem pixel_service_no_resample_errors :
    comparePixelData wOpts "snap" wShot2 wStorePixelBaseline =
      .error "Image sizes do not match." := rfl

/-- Resampled data has exactly the requested pixel count. -/
theorem sharpResize_data_length (img : Image) (w h : Nat) :
    (sharpResize img w h).data.length = w * h * 4 := by
  have hlen := length_flatMap_const
    (fun i => img.pixelBytes (i % w * img.width / w) (i / w * img.height / h))
    4 (fun i => rfl) (List.range (w * h))
  simp only [sharpResize]
  rw [hlen, List.length_range]
  ring

/-- Claim C9 amended: the standalone pixel path (`matchImageSnapshot`)
resamples the actual image to the baseline's dimensions when they differ and
the comparison completes without error; the service's `comparePixelData`
never resamples, and a dimension mismatch there surfaces as an error. -/
theorem matchImageSnapshot_resizes_and_completes (imageData : Image)
    (snapshotName baselineFolder actualFolder diffFolder : String) (st : Store)
    (b : Image)
    (hb : st.readPng (baselineFolder ++ "/" ++ snapshotName) = some b)
    (hwf : b.data.length = b.width * b.height * 4)
    (hneq : imagesHaveSameSize b imageData = false)
    (hpath1 : actualFolder ++ "/" ++ snapshotName ≠
      baselineFolder ++ "/" ++ snapshotName) :
    (sharpResize imageData b.width b.height).width = b.width ∧
    (sharpResize imageData b.width b.height).height = b.height ∧
    ∃ r st', matchImageSnapshot imageData snapshotName baselineFolder
        actualFolder diffFolder st = .ok (some r, st') ∧
      r.firstRun = false := by
  refine ⟨rfl, rfl, ?_⟩
  have hb' : alistFind st.pngFiles (baselineFolder ++ "/" ++ snapshotName) =
      some b := hb
  have hlen : (sharpResize imageData b.width b.height).data.length =
      b.width * b.height * 4 := sharpResize_data_length imageData b.width b.height
  simp only [matchImageSnapshot, Store.readPng, Store.writePng, alistFind,
    hb', if_neg hpath1, hneq, Bool.not_false, if_true, Option.getD_some,
    pixelmatch, hwf, hlen, ne_eq, not_true_eq_false, reduceIte]
  exact ⟨_, _, rfl, rfl⟩

/-- The resize path evaluated on a 1-by-1 baseline and a 2-by-2 screenshot. -/
theorem matchImageSnapshot_resizes_witness :
    (wStorePixelBaseline.readPng
      ("./baseline-data" ++ "/" ++ "snap.png") = some wShot) ∧
    wShot.data.length = wShot.width * wShot.height * 4 ∧
    imagesHaveSameSize wShot wShot2 = false ∧
    ("./actual-data" ++ "/" ++ "snap.png" ≠
      "./baseline-data" ++ "/" ++ "snap.png") ∧
    ((sharpResize wShot2 wShot.width wShot.height).width = wShot.width ∧
     (sharpResize wShot2 wShot.width wShot.height).height = wShot.height ∧
     ∃ r st', matchImageSnapshot wShot2 "snap.png" "./baseline-data"
         "./actual-data" "./diff-images" wStorePixelBaseline =
           .ok (some r, st') ∧
       r.firstRun = false) :=
  ⟨rfl, rfl, rfl, by decide,
    matchImageSnapshot_resizes_and_completes wShot2 "snap.png"
      "./baseline-data" "./actual-data" "./diff-images" wStorePixelBaseline
      wShot rfl rfl rfl (by decide)⟩

end Compositor
